import Mathlib

/-!
Shallow embedding of the invoicing dashboard data-access and mutation layer
(`src/app/lib/data.ts`, `src/unnamed/part_000`, `src/unnamed/part_001`).

Conventions of the embedding:
* JS numbers are modelled as exact rationals (`ℚ`); amounts stored in the
  remote store are integer cents (`ℕ`) on the read side, rationals on the
  write side (the mutation layer can write non-integer values).
* A supabase-js v2 call never rejects its promise for database failures: it
  resolves with an in-band error value.  A call outcome is therefore either
  `resolved err?` (the normal supabase behaviour, with `err? = some e` for a
  reported failure) or `rejected e` (a thrown exception, kept so that the
  source try/catch blocks stay meaningful).
* Side effects (store writes, cache invalidations, redirects) are collected
  in trace structures returned next to the result value.
-/

/-! ### Decimal digit utilities (shared by the currency-format model) -/

/-- Numeric value of a decimal digit character, `none` for non-digits. -/
def digitVal? (c : Char) : Option Nat :=
  if '0' ≤ c ∧ c ≤ '9' then some (c.toNat - '0'.toNat) else none

/-- Test for a decimal digit character. -/
def isDig (c : Char) : Bool := (digitVal? c).isSome

/-- Little-endian decimal digits of `n`, with explicit fuel so that the
recursion is structural. -/
def digitsRevAux : Nat → Nat → List Nat
  | 0, _ => []
  | _ + 1, 0 => []
  | fuel + 1, n + 1 => (n + 1) % 10 :: digitsRevAux fuel ((n + 1) / 10)

/-- Little-endian decimal digits of `n` (empty for `0`). -/
def digitsRev (n : Nat) : List Nat := digitsRevAux n n

/-- Value of a little-endian decimal digit list. -/
def ofDigitsLE : List Nat → Nat
  | [] => 0
  | d :: ds => d + 10 * ofDigitsLE ds

theorem ofDigitsLE_digitsRevAux (fuel : Nat) :
    ∀ n, n ≤ fuel → ofDigitsLE (digitsRevAux fuel n) = n := by
  induction fuel with
  | zero => intro n hn; interval_cases n; rfl
  | succ fuel ih =>
    intro n hn
    match n with
    | 0 => rfl
    | m + 1 =>
      have hdiv : (m + 1) / 10 < m + 1 := Nat.div_lt_self (Nat.succ_pos m) (by norm_num)
      have hle : (m + 1) / 10 ≤ fuel := by omega
      simp only [digitsRevAux, ofDigitsLE, ih _ hle]
      omega

theorem ofDigitsLE_digitsRev (n : Nat) : ofDigitsLE (digitsRev n) = n :=
  ofDigitsLE_digitsRevAux n n le_rfl

theorem digitsRevAux_lt_ten (fuel : Nat) :
    ∀ n, ∀ d ∈ digitsRevAux fuel n, d < 10 := by
  induction fuel with
  | zero => intro n d hd; simp [digitsRevAux] at hd
  | succ fuel ih =>
    intro n d hd
    match n with
    | 0 => simp [digitsRevAux] at hd
    | m + 1 =>
      simp only [digitsRevAux, List.mem_cons] at hd
      rcases hd with h | h
      · omega
      · exact ih _ _ h

theorem digitsRev_lt_ten (n : Nat) : ∀ d ∈ digitsRev n, d < 10 :=
  digitsRevAux_lt_ten n n

theorem digitsRev_ne_nil (n : Nat) (hn : n ≠ 0) : digitsRev n ≠ [] := by
  match n with
  | 0 => exact absurd rfl hn
  | m + 1 => simp [digitsRev, digitsRevAux]

/-! ### Currency formatting (C9)

Modelled from the spec: `formatCurrency` lives in `src/app/lib/utils.ts`,
which is not part of the provided sources (only its import and call sites
are).  The spec describes it as the deterministic conversion of an integer
cent amount to a major-currency display string; we model it as the canonical
`$<dollars>.<two-digit cents>` character sequence, without locale grouping
separators. -/

/-- Big-endian decimal character representation of a natural number. -/
def decRepr (n : Nat) : List Char :=
  if n = 0 then ['0'] else ((digitsRev n).map Nat.digitChar).reverse

/-- Two-digit zero-padded character representation of `m < 100`. -/
def twoDigits (m : Nat) : List Char :=
  [Nat.digitChar (m / 10), Nat.digitChar (m % 10)]

/-- Modelled from the spec: convert integer cents to the major-currency
display string. -/
def formatCurrency (cents : Nat) : List Char :=
  '$' :: decRepr (cents / 100) ++ '.' :: twoDigits (cents % 100)

/-- Value of a little-endian digit-character list; `none` on a non-digit. -/
def valLE : List Char → Option Nat
  | [] => some 0
  | c :: cs =>
    match digitVal? c, valLE cs with
    | some d, some v => some (d + 10 * v)
    | _, _ => none

/-- Value of a non-empty big-endian digit-character list. -/
def decodeVal (ds : List Char) : Option Nat :=
  match ds with
  | [] => none
  | _ => valLE ds.reverse

/-- Parse the `.<two-digit cents>` tail of a display string. -/
def parseCentsPart (dollars : Nat) (tail : List Char) : Option Nat :=
  match tail with
  | p₁ :: c₁ :: c₂ :: [] =>
    if p₁ = '.' then
      match digitVal? c₁, digitVal? c₂ with
      | some d₁, some d₂ => some (dollars * 100 + (10 * d₁ + d₂))
      | _, _ => none
    else none
  | _ => none

/-- Parse the dollars-then-cents body of a display string. -/
def parseDollarsPart (rest : List Char) : Option Nat :=
  match decodeVal (rest.takeWhile isDig) with
  | none => none
  | some dollars => parseCentsPart dollars (rest.dropWhile isDig)

/-- Parse a `$<dollars>.<two-digit cents>` display string back to cents. -/
def parseCurrency (cs : List Char) : Option Nat :=
  match cs with
  | [] => none
  | c :: rest => if c = '$' then parseDollarsPart rest else none

theorem digitVal?_digitChar (d : Nat) (hd : d < 10) :
    digitVal? (Nat.digitChar d) = some d := by
  interval_cases d <;> decide

theorem isDig_digitChar (d : Nat) (hd : d < 10) : isDig (Nat.digitChar d) = true := by
  simp [isDig, digitVal?_digitChar d hd]

theorem valLE_map_digitChar (ds : List Nat) (h : ∀ d ∈ ds, d < 10) :
    valLE (ds.map Nat.digitChar) = some (ofDigitsLE ds) := by
  induction ds with
  | nil => rfl
  | cons d ds ih =>
    have hd : d < 10 := h d (List.mem_cons_self d ds)
    have hds : ∀ x ∈ ds, x < 10 := fun x hx => h x (List.mem_cons_of_mem d hx)
    simp [valLE, digitVal?_digitChar d hd, ih hds, ofDigitsLE]

theorem decodeVal_decRepr (n : Nat) : decodeVal (decRepr n) = some n := by
  by_cases hn : n = 0
  · subst hn; decide
  · have hne := digitsRev_ne_nil n hn
    have hmap : (digitsRev n).map Nat.digitChar ≠ [] := by
      simpa using hne
    have hrev : ((digitsRev n).map Nat.digitChar).reverse ≠ [] := by
      simpa using hmap
    unfold decRepr decodeVal
    rw [if_neg hn]
    match hcase : ((digitsRev n).map Nat.digitChar).reverse with
    | [] => exact absurd hcase hrev
    | c :: cs =>
      rw [← hcase]
      simp only [List.reverse_reverse]
      rw [valLE_map_digitChar _ (digitsRev_lt_ten n), ofDigitsLE_digitsRev]

theorem takeWhile_left_of_all {p : Char → Bool} (l r : List Char)
    (h : ∀ x ∈ l, p x = true) (y : Char) (hy : p y = false) :
    (l ++ y :: r).takeWhile p = l := by
  induction l with
  | nil => simp [List.takeWhile, hy]
  | cons a l ih =>
    have ha : p a = true := h a (List.mem_cons_self a l)
    have hl := ih (fun x hx => h x (List.mem_cons_of_mem a hx))
    simp [List.takeWhile_cons, ha, hl]

theorem dropWhile_right_of_all {p : Char → Bool} (l r : List Char)
    (h : ∀ x ∈ l, p x = true) (y : Char) (hy : p y = false) :
    (l ++ y :: r).dropWhile p = y :: r := by
  induction l with
  | nil => simp [List.dropWhile, hy]
  | cons a l ih =>
    have ha : p a = true := h a (List.mem_cons_self a l)
    simp only [List.cons_append, List.dropWhile_cons, ha]
    exact ih fun x hx => h x (List.mem_cons_of_mem a hx)

theorem decRepr_all_digits (n : Nat) : ∀ c ∈ decRepr n, isDig c = true := by
  intro c hc
  unfold decRepr at hc
  by_cases hn : n = 0
  · rw [if_pos hn] at hc
    simp only [List.mem_singleton] at hc
    subst hc; decide
  · rw [if_neg hn] at hc
    simp only [List.mem_reverse, List.mem_map] at hc
    obtain ⟨d, hd, rfl⟩ := hc
    exact isDig_digitChar d (digitsRev_lt_ten n d hd)

/-- Round-trip of the currency formatting model: parsing a formatted integer
cent amount returns exactly that amount. -/
theorem parseCurrency_formatCurrency (c : Nat) :
    parseCurrency (formatCurrency c) = some c := by
  have hdot : isDig '.' = false := by decide
  have h10 : c % 100 / 10 < 10 := by omega
  have h1 : c % 100 % 10 < 10 := by omega
  have htake : ((decRepr (c / 100) ++
      ['.', (c % 100 / 10).digitChar, (c % 100 % 10).digitChar]).takeWhile isDig) =
      decRepr (c / 100) :=
    takeWhile_left_of_all _ _ (decRepr_all_digits (c / 100)) _ hdot
  have hdrop : ((decRepr (c / 100) ++
      ['.', (c % 100 / 10).digitChar, (c % 100 % 10).digitChar]).dropWhile isDig) =
      ['.', (c % 100 / 10).digitChar, (c % 100 % 10).digitChar] :=
    dropWhile_right_of_all _ _ (decRepr_all_digits (c / 100)) _ hdot
  simp [parseCurrency, formatCurrency, parseDollarsPart, parseCentsPart, htake, hdrop,
        decodeVal_decRepr, twoDigits, digitVal?_digitChar _ h10, digitVal?_digitChar _ h1]
  omega

/-! ### JS number coercion (used by `z.coerce.number()` in the form schema) -/

/-- Whitespace characters trimmed by the JS string-to-number coercion. -/
def isJsWs (c : Char) : Bool := c = ' ' || c = '\t' || c = '\n' || c = '\r'

/-- Value of a big-endian all-digit character list (`0` when empty). -/
def beValN (ds : List Char) : Nat :=
  ds.foldl (fun a c => 10 * a + ((digitVal? c).getD 0)) 0

/-- Modelled from the platform: the JS `Number(string)` coercion restricted to
plain decimal literals (optional sign, integer digits, optional fraction),
the only numeric syntax the claims exercise.  Other syntaxes (exponents, hex,
`Infinity`) coerce to `none` (NaN) in this model.  The empty or
all-whitespace string coerces to `0`, as in JS. -/
def jsParseNumber (s : String) : Option ℚ :=
  let cs := ((s.data.dropWhile isJsWs).reverse.dropWhile isJsWs).reverse
  match cs with
  | [] => some 0
  | c₀ :: tail =>
    let neg : Bool := c₀ = '-'
    let body := if c₀ = '-' ∨ c₀ = '+' then tail else c₀ :: tail
    let ip := body.takeWhile isDig
    let rest := body.dropWhile isDig
    let value : Option ℚ :=
      match rest with
      | [] => if ip = [] then none else some (beValN ip : ℚ)
      | c :: frac =>
        if c = '.' then
          let fp := frac.takeWhile isDig
          if frac.dropWhile isDig = [] ∧ (ip ≠ [] ∨ fp ≠ []) then
            some ((beValN ip : ℚ) + (beValN fp : ℚ) / (10 : ℚ) ^ fp.length)
          else none
        else none
    match value with
    | none => none
    | some v => some (if neg then -v else v)

/-! ### Form validation (`FormSchema` in src/unnamed/part_001, lines 7-22) -/

/-- Invoice status enumeration (`z.enum(['pending', 'paid'])`). -/
inductive InvStatus
  | pending
  | paid
deriving DecidableEq

/-- Submitted form fields as read by `formData.get` (a missing field is
`null`, modelled as `none`). -/
structure InvoiceFormData where
  id : Option String
  customerId : Option String
  amount : Option String
  status : Option String

/-- Coercion step of `z.coerce.number()`: `Number(formData.get(k))`, where
`Number(null) = 0`. -/
def jsNumber : Option String → Option ℚ
  | none => some 0
  | some s => jsParseNumber s

/-- Validation of `customerId` (`z.string()` with an invalid-type message). -/
def parseCustomerId : Option String → Except String String
  | some s => .ok s
  | none => .error "Please select a customer."

/-- Validation of `amount` (`z.coerce.number().gt(0, ...)`). -/
def parseAmount (v : Option String) : Except String ℚ :=
  match jsNumber v with
  | none => .error "Expected number, received nan"
  | some q =>
    if 0 < q then .ok q else .error "please enter an amount greater than 0."

/-- Validation of `status` (`z.enum(['pending', 'paid'], ...)`). -/
def parseStatus (v : Option String) : Except String InvStatus :=
  match v with
  | none => .error "Please select an invoice status."
  | some s =>
    if s = "pending" then .ok .pending
    else if s = "paid" then .ok .paid
    else .error "Invalid enum value. Expected pending or paid."

/-- Field-keyed error map, the shape of
`validatedFields.error.flatten().fieldErrors`. -/
structure FieldErrors where
  customerId : List String
  amount : List String
  status : List String
deriving DecidableEq

/-- Issue list contributed by one field to the flattened error map. -/
def errList {α : Type} : Except String α → List String
  | .ok _ => []
  | .error m => [m]

/-- Validated payload of `CreateInvoice` and `UpdateInvoice`
(`FormSchema.omit({id, date})`). -/
structure InvoiceFields where
  customerId : String
  amount : ℚ
  status : InvStatus
deriving DecidableEq

/-- Model of `CreateInvoice.safeParse` over the three submitted fields. -/
def CreateInvoiceSafeParse (f : InvoiceFormData) : Except FieldErrors InvoiceFields :=
  match parseCustomerId f.customerId, parseAmount f.amount, parseStatus f.status with
  | .ok c, .ok a, .ok s => .ok ⟨c, a, s⟩
  | rc, ra, rs => .error ⟨errList rc, errList ra, errList rs⟩

/-- Model of `UpdateInvoice.safeParse`; `UpdateInvoice` is the same omission
of `id` and `date` from `FormSchema` as `CreateInvoice`. -/
def UpdateInvoiceSafeParse : InvoiceFormData → Except FieldErrors InvoiceFields :=
  CreateInvoiceSafeParse

/-! ### Mutation layer (src/unnamed/part_001) -/

/-- Error value surfaced by the store client; `isError` records whether the
value is an `Error` instance (`error instanceof Error` in the source). -/
structure JsError where
  isError : Bool
  message : String
deriving DecidableEq

/-- Outcome of one awaited store call.  A supabase-js v2 call reports
database failures in-band: it resolves with `error = some e` and does not
reject.  The `rejected` constructor keeps a thrown exception representable so
that the try/catch blocks of the source remain meaningful. -/
inductive StoreCallOutcome
  | resolved (error : Option JsError)
  | rejected (e : JsError)
deriving DecidableEq

/-- Row handed to `supabase.from('invoices').insert`. -/
structure InsertRow where
  customer_id : String
  amount : ℚ
  status : InvStatus
  date : String
deriving DecidableEq

/-- Column values handed to `supabase.from('invoices').update`. -/
structure UpdateRow where
  customer_id : String
  amount : ℚ
  status : InvStatus
deriving DecidableEq

/-- Observable completion of `createInvoice`/`updateInvoice`: a field-error
result, a generic message result, or a redirect (which never returns). -/
inductive ActionResult
  | formErrors (errors : FieldErrors) (message : String)
  | message (message : String)
  | redirected (path : String)
deriving DecidableEq

/-- Execution trace of `createInvoice`: result plus side effects. -/
structure CreateTrace where
  result : ActionResult
  inserts : List InsertRow
  revalidated : List String
  redirects : List String
deriving DecidableEq

/-- Model of `new Date().toISOString().split('T')[0]`: the calendar-date part
of the current ISO timestamp `now`, i.e. the characters before the first
`T`. -/
def isoDatePart (now : String) : String :=
  String.mk (now.data.takeWhile (fun c => c ≠ 'T'))

/-- Model of `createInvoice` (src/unnamed/part_001, lines 33-72).  The source
awaits the insert but never inspects its resolved `error` value, so a
resolved in-band error still falls through to `revalidatePath` and
`redirect`; only a thrown exception reaches the catch block that returns the
generic database-error message. -/
def createInvoice (f : InvoiceFormData) (now : String)
    (insertOutcome : StoreCallOutcome) : CreateTrace :=
  match CreateInvoiceSafeParse f with
  | .error e =>
    { result := .formErrors e "Missing Fields. Failed to Create Invoice."
      inserts := [], revalidated := [], redirects := [] }
  | .ok d =>
    let amountInCents := d.amount * 100
    let date := isoDatePart now
    let row : InsertRow := ⟨d.customerId, amountInCents, d.status, date⟩
    match insertOutcome with
    | .rejected _ =>
      { result := .message "Database Error: Failed to Create Invoice."
        inserts := [row], revalidated := [], redirects := [] }
    | .resolved _ =>
      { result := .redirected "/dashboard/invoices"
        inserts := [row]
        revalidated := ["/dashboard/invoices"]
        redirects := ["/dashboard/invoices"] }

/-- Execution trace of `updateInvoice`: each update attempt is keyed by the
raw `id` form value (`formData.get('id') as string`, possibly missing). -/
structure UpdateTrace where
  result : ActionResult
  updates : List (Option String × UpdateRow)
  revalidated : List String
  redirects : List String
deriving DecidableEq

/-- Model of `updateInvoice` (src/unnamed/part_001, lines 75-115).  The `id`
used to key the update is taken verbatim from the form (`as string` is only a
type assertion); unlike `createInvoice`, the source checks the resolved
`error` of the update call and returns the generic message on failure. -/
def updateInvoice (f : InvoiceFormData)
    (updateOutcome : StoreCallOutcome) : UpdateTrace :=
  let id := f.id
  match UpdateInvoiceSafeParse f with
  | .error e =>
    { result := .formErrors e "Missing Fields. Failed to Update Invoice."
      updates := [], revalidated := [], redirects := [] }
  | .ok d =>
    let row : UpdateRow := ⟨d.customerId, d.amount * 100, d.status⟩
    match updateOutcome with
    | .resolved none =>
      { result := .redirected "/dashboard/invoices"
        updates := [(id, row)]
        revalidated := ["/dashboard/invoices"]
        redirects := ["/dashboard/invoices"] }
    | .resolved (some _) =>
      { result := .message "Database Error: Failed to Update Invoice."
        updates := [(id, row)], revalidated := [], redirects := [] }
    | .rejected _ =>
      { result := .message "Database Error: Failed to Update Invoice."
        updates := [(id, row)], revalidated := [], redirects := [] }

/-- Observable completion of `deleteInvoice`: normal return or a raised
error. -/
inductive DeleteResult
  | completed
  | raised (message : String)
deriving DecidableEq

/-- Execution trace of `deleteInvoice`. -/
structure DeleteTrace where
  result : DeleteResult
  deletes : List String
  revalidated : List String
deriving DecidableEq

/-- Message of the error rethrown by `deleteInvoice`:
`error instanceof Error ? error.message : 'Failed to delete invoice.'`. -/
def deleteRaisedMessage (e : JsError) : String :=
  if e.isError then e.message else "Failed to delete invoice."

/-- Model of `deleteInvoice` (src/unnamed/part_001, lines 117-134).  A
resolved in-band error is thrown inside the try block and rethrown by the
catch; `revalidatePath` sits after the try/catch, so it runs only when the
delete succeeded. -/
def deleteInvoice (id : String) (deleteOutcome : StoreCallOutcome) : DeleteTrace :=
  match deleteOutcome with
  | .resolved none =>
    { result := .completed, deletes := [id]
      revalidated := ["/dashboard/invoices"] }
  | .resolved (some e) =>
    { result := .raised (deleteRaisedMessage e), deletes := [id], revalidated := [] }
  | .rejected e =>
    { result := .raised (deleteRaisedMessage e), deletes := [id], revalidated := [] }

/-! ### Query layer store model (src/app/lib/data.ts) -/

/-- Customer row of the remote store. -/
structure CustomerRec where
  id : String
  name : String
  email : String
  image_url : String
deriving DecidableEq

/-- Invoice row of the remote store (amounts are integer cents). -/
structure InvoiceRec where
  id : String
  customer_id : String
  amount : Nat
  status : InvStatus
  date : String
deriving DecidableEq

/-- Contents of the remote store visible to the query layer. -/
structure Store where
  invoices : List InvoiceRec
  customers : List CustomerRec
deriving DecidableEq

/-- Success flags of the four concurrent `fetchCardData` sub-queries; a
failing sub-query resolves with `count = null` / `data = null`. -/
structure CardQueryOutcomes where
  invoiceCount : Bool
  customerCount : Bool
  paid : Bool
  pending : Bool
deriving DecidableEq

/-- Aggregate snapshot returned by `fetchCardData`. -/
structure CardData where
  numberOfCustomers : Nat
  numberOfInvoices : Nat
  totalPaidInvoices : List Char
  totalPendingInvoices : List Char
deriving DecidableEq

/-- Model of `fetchCardData` (src/app/lib/data.ts, lines 83-112).  The four
sub-queries resolve in-band (supabase-js does not reject), `Promise.all`
therefore resolves, and the source reads `count ?? 0` and
`data?.reduce(...) ?? 0` without ever inspecting the per-query `error`
values, so a failed sub-query contributes `0`; the catch block is
unreachable for store failures. -/
def fetchCardData (st : Store) (oc : CardQueryOutcomes) : Except String CardData :=
  let invoiceCount : Option Nat :=
    if oc.invoiceCount then some st.invoices.length else none
  let customerCount : Option Nat :=
    if oc.customerCount then some st.customers.length else none
  let paidData : Option (List Nat) :=
    if oc.paid then
      some ((st.invoices.filter (fun r => r.status == InvStatus.paid)).map (·.amount))
    else none
  let pendingData : Option (List Nat) :=
    if oc.pending then
      some ((st.invoices.filter (fun r => r.status == InvStatus.pending)).map (·.amount))
    else none
  .ok {
    numberOfCustomers := customerCount.getD 0
    numberOfInvoices := invoiceCount.getD 0
    totalPaidInvoices :=
      formatCurrency ((paidData.map (fun l => l.foldl (· + ·) 0)).getD 0)
    totalPendingInvoices :=
      formatCurrency ((pendingData.map (fun l => l.foldl (· + ·) 0)).getD 0)
  }

/-! ### Filtered invoice search (C7, C8) -/

/-- Test whether the first list is an initial segment of the second. -/
def leadMatch : List Char → List Char → Bool
  | [], _ => true
  | _ :: _, [] => false
  | a :: as, b :: bs => a == b && leadMatch as bs

/-- Test whether `needle` occurs contiguously inside the second list. -/
def containsSeq (needle : List Char) : List Char → Bool
  | [] => needle.isEmpty
  | b :: bs => leadMatch needle (b :: bs) || containsSeq needle bs

/-- Case-insensitive substring test (the `ilike '%q%'` predicate). -/
def containsCI (hay q : String) : Bool :=
  containsSeq (q.data.map Char.toLower) (hay.data.map Char.toLower)

/-- Modelled from the spec: an invoice matches the search filter when its
owning customer exists and the query is a case-insensitive substring of the
customer name or email. -/
def matchesQuery (st : Store) (q : String) (inv : InvoiceRec) : Bool :=
  match st.customers.find? (fun c => c.id == inv.customer_id) with
  | some c => containsCI c.name q || containsCI c.email q
  | none => false

/-- Invoice row joined with its customer fields, as returned by the
`fetch_filtered_invoices` procedure. -/
structure JoinedInvoice where
  id : String
  amount : Nat
  date : String
  status : InvStatus
  name : String
  email : String
  image_url : String
deriving DecidableEq

/-- Join an invoice with its customer fields. -/
def joinCustomer (st : Store) (inv : InvoiceRec) : JoinedInvoice :=
  match st.customers.find? (fun c => c.id == inv.customer_id) with
  | some c => ⟨inv.id, inv.amount, inv.date, inv.status, c.name, c.email, c.image_url⟩
  | none => ⟨inv.id, inv.amount, inv.date, inv.status, "", "", ""⟩

/-- Lexicographic less-or-equal on code-point lists. -/
def natLexLe : List Nat → List Nat → Bool
  | [], _ => true
  | _ :: _, [] => false
  | a :: as, b :: bs => if a < b then true else if a = b then natLexLe as bs else false

/-- String order used for the date sort: lexicographic on code points, which
on ISO calendar-date strings is the chronological order. -/
def strLe (a b : String) : Bool := natLexLe (a.data.map Char.toNat) (b.data.map Char.toNat)

/-- Comparator placing later dates first (`order('date', ascending: false)`). -/
def dateDescLe (a b : JoinedInvoice) : Bool := strLe b.date a.date

/-- Insert one row into a date-descending sorted list. -/
def insertByDateDesc (x : JoinedInvoice) : List JoinedInvoice → List JoinedInvoice
  | [] => [x]
  | y :: ys => if dateDescLe x y then x :: y :: ys else y :: insertByDateDesc x ys

/-- Sort rows by date descending (insertion sort). -/
def sortByDateDesc : List JoinedInvoice → List JoinedInvoice
  | [] => []
  | x :: xs => insertByDateDesc x (sortByDateDesc xs)

/-- Modelled from the spec: the stored procedure `fetch_filtered_invoices`
returns one limit/offset window of the invoices whose customer name or email
matches the query case-insensitively, ordered by date descending and joined
with the customer fields.  The procedure itself is not part of the provided
sources; only its caller in `src/app/lib/data.ts` is. -/
def fetch_filtered_invoices (st : Store) (query_text : String)
    (limit_num offset_num : Nat) : List JoinedInvoice :=
  ((sortByDateDesc ((st.invoices.filter (matchesQuery st query_text)).map
      (joinCustomer st))).drop offset_num).take limit_num

/-- Modelled from the spec: the stored procedure `fetch_invoices_pages_count`
returns the number of invoices matching the query. -/
def fetch_invoices_pages_count (st : Store) (query_text : String) : Nat :=
  (st.invoices.filter (matchesQuery st query_text)).length

/-- Fixed page size of the invoice search. -/
def ITEMS_PER_PAGE : Nat := 6

/-- Row shape returned by `fetchFilteredInvoices` (the `Invoice` interface in
`src/app/lib/data.ts`): `amount` is a number obtained with `parseFloat`. -/
structure InvoiceDisplay where
  id : String
  amount : ℚ
  date : String
  status : InvStatus
  name : String
  email : String
  image_url : String
deriving DecidableEq

/-- Model of `fetchFilteredInvoices` (src/app/lib/data.ts, lines 127-161):
the offset is `(currentPage - 1) * ITEMS_PER_PAGE`; matching, ordering and
pagination are delegated to the `fetch_filtered_invoices` procedure; each
returned row maps `amount` through `parseFloat`, yielding the numeric cent
value unchanged, not a display string. -/
def fetchFilteredInvoices (st : Store) (query : String) (currentPage : Nat)
    (rpcFails : Bool) : Except String (List InvoiceDisplay) :=
  let offset := (currentPage - 1) * ITEMS_PER_PAGE
  if rpcFails then .error "Failed to fetch invoices."
  else
    .ok ((fetch_filtered_invoices st query ITEMS_PER_PAGE offset).map
      fun r => ⟨r.id, (r.amount : ℚ), r.date, r.status, r.name, r.email, r.image_url⟩)

/-- Model of `fetchInvoicesPages` (src/app/lib/data.ts, lines 163-182):
`Math.ceil(count / ITEMS_PER_PAGE)` over the procedure-reported matching row
count. -/
def fetchInvoicesPages (st : Store) (query : String) (rpcFails : Bool) :
    Except String ℤ :=
  if rpcFails then .error "Failed to fetch total number of invoices."
  else .ok ⌈(fetch_invoices_pages_count st query : ℚ) / (ITEMS_PER_PAGE : ℚ)⌉

/-! ### Mutation layer theorems -/

deriving instance DecidableEq for Except

theorem CreateInvoiceSafeParse_error_eq (f : InvoiceFormData) (e : FieldErrors)
    (h : CreateInvoiceSafeParse f = .error e) :
    e = ⟨errList (parseCustomerId f.customerId), errList (parseAmount f.amount),
         errList (parseStatus f.status)⟩ := by
  unfold CreateInvoiceSafeParse at h
  cases hc : parseCustomerId f.customerId <;> cases ha : parseAmount f.amount <;>
    cases hs : parseStatus f.status <;> rw [hc, ha, hs] at h <;>
    simp_all [errList]

/-- C1: a form submission to `createInvoice` that fails validation of
`customerId`, `amount` or `status` (in particular an amount coerced to a
value not greater than 0, or a missing `customerId`) returns the field-error
map with a non-empty entry under each failing key, issues no store write,
performs no cache invalidation, and performs no redirect. -/
theorem createInvoice_validation_failure (f : InvoiceFormData) (now : String)
    (oc : StoreCallOutcome) (e : FieldErrors)
    (h : CreateInvoiceSafeParse f = .error e) :
    (createInvoice f now oc).inserts = [] ∧
    (createInvoice f now oc).revalidated = [] ∧
    (createInvoice f now oc).redirects = [] ∧
    (createInvoice f now oc).result =
      .formErrors e "Missing Fields. Failed to Create Invoice." ∧
    (∀ m, parseCustomerId f.customerId = .error m → e.customerId ≠ []) ∧
    (∀ m, parseAmount f.amount = .error m → e.amount ≠ []) ∧
    (∀ m, parseStatus f.status = .error m → e.status ≠ []) := by
  have ht : createInvoice f now oc =
      { result := .formErrors e "Missing Fields. Failed to Create Invoice."
        inserts := [], revalidated := [], redirects := [] } := by
    unfold createInvoice
    rw [h]
  have he := CreateInvoiceSafeParse_error_eq f e h
  refine ⟨by rw [ht], by rw [ht], by rw [ht], by rw [ht], ?_, ?_, ?_⟩
  · intro m hm; rw [he]; simp [hm, errList]
  · intro m hm; rw [he]; simp [hm, errList]
  · intro m hm; rw [he]; simp [hm, errList]

theorem createInvoice_validation_failure_witness :
    CreateInvoiceSafeParse ⟨none, none, some "0", some "bogus"⟩ =
      .error ⟨["Please select a customer."],
              ["please enter an amount greater than 0."],
              ["Invalid enum value. Expected pending or paid."]⟩ ∧
    (createInvoice ⟨none, none, some "0", some "bogus"⟩
        "2026-10-11T00:00:00.000Z" (.resolved none)).inserts = [] ∧
    (createInvoice ⟨none, none, some "0", some "bogus"⟩
        "2026-10-11T00:00:00.000Z" (.resolved none)).redirects = [] :=
  ⟨by decide,
   (createInvoice_validation_failure ⟨none, none, some "0", some "bogus"⟩
      "2026-10-11T00:00:00.000Z" (.resolved none)
      ⟨["Please select a customer."], ["please enter an amount greater than 0."],
       ["Invalid enum value. Expected pending or paid."]⟩ (by decide)).1,
   (createInvoice_validation_failure ⟨none, none, some "0", some "bogus"⟩
      "2026-10-11T00:00:00.000Z" (.resolved none)
      ⟨["Please select a customer."], ["please enter an amount greater than 0."],
       ["Invalid enum value. Expected pending or paid."]⟩ (by decide)).2.2.1⟩

/-- C3 (code bug): with a validated form and the store insert resolving with
an in-band error — the failure mode of the supabase client, whose result the
source never inspects — `createInvoice` still revalidates the cache and
redirects, and the generic database-error message result is not returned. -/
theorem createInvoice_ignores_insert_error :
    (createInvoice ⟨none, some "c1", some "10", some "paid"⟩
        "2026-10-11T00:00:00.000Z"
        (.resolved (some ⟨true, "duplicate key value"⟩))).redirects =
      ["/dashboard/invoices"] ∧
    (createInvoice ⟨none, some "c1", some "10", some "paid"⟩
        "2026-10-11T00:00:00.000Z"
        (.resolved (some ⟨true, "duplicate key value"⟩))).revalidated =
      ["/dashboard/invoices"] ∧
    (createInvoice ⟨none, some "c1", some "10", some "paid"⟩
        "2026-10-11T00:00:00.000Z"
        (.resolved (some ⟨true, "duplicate key value"⟩))).result =
      .redirected "/dashboard/invoices" := by
  decide

/-- C4 (counterexample): the validated amount 0.005 passes the `gt(0)` check,
and `createInvoice` stores `amount * 100 = 0.5` exactly: the stored amount is
not `round(amount * 100) = 1` and is not an integer number of cents, because
the source multiplies without rounding. -/
theorem createInvoice_amount_not_rounded :
    (createInvoice ⟨none, some "c1", some "0.005", some "paid"⟩
        "2026-10-11T12:00:00.000Z" (.resolved none)).inserts =
      [⟨"c1", (1 : ℚ)/2, .paid, "2026-10-11"⟩] ∧
    ((1 : ℚ)/2 ≠ (round ((1 : ℚ)/2) : ℚ)) ∧
    (¬ ∃ z : ℤ, ((1 : ℚ)/2) = (z : ℚ)) := by
  have hnum : jsParseNumber "0.005" =
      some (((0 : ℕ) : ℚ) + ((5 : ℕ) : ℚ) / (10 : ℚ) ^ 3) := rfl
  have hq : (0 : ℚ) < ((0 : ℕ) : ℚ) + ((5 : ℕ) : ℚ) / (10 : ℚ) ^ 3 := by norm_num
  have hjn : jsNumber (some "0.005") =
      some (((0 : ℕ) : ℚ) + ((5 : ℕ) : ℚ) / (10 : ℚ) ^ 3) := hnum
  have hpa : parseAmount (some "0.005") =
      .ok (((0 : ℕ) : ℚ) + ((5 : ℕ) : ℚ) / (10 : ℚ) ^ 3) := by
    unfold parseAmount
    rw [hjn]
    simp [hq]
  have hparse : CreateInvoiceSafeParse ⟨none, some "c1", some "0.005", some "paid"⟩ =
      .ok ⟨"c1", ((0 : ℕ) : ℚ) + ((5 : ℕ) : ℚ) / (10 : ℚ) ^ 3, .paid⟩ := by
    unfold CreateInvoiceSafeParse
    rw [hpa]
    rfl
  refine ⟨?_, ?_, ?_⟩
  · unfold createInvoice
    rw [hparse]
    have hval : (((0 : ℕ) : ℚ) + ((5 : ℕ) : ℚ) / (10 : ℚ) ^ 3) * 100 = (1 : ℚ)/2 := by
      norm_num
    have hdate : isoDatePart "2026-10-11T12:00:00.000Z" = "2026-10-11" := by decide
    norm_num [hdate]
  · rw [show round ((1 : ℚ)/2) = 1 by norm_num [round_eq]]
    norm_num
  · rintro ⟨z, hz⟩
    field_simp at hz
    have hz2 : (1 : ℤ) = z * 2 := by exact_mod_cast hz
    omega

/-- C4 (amended): for every validated submission, `createInvoice` writes the
row with amount equal to the validated amount times 100 exactly (no rounding,
an integer only when the amount is a whole multiple of a cent) and with the
calendar-date part of the current ISO timestamp; `updateInvoice` writes the
same amount value, keyed by the raw `id` form field. -/
theorem invoice_amount_written (f : InvoiceFormData) (now : String)
    (oc : StoreCallOutcome) (d : InvoiceFields)
    (h : CreateInvoiceSafeParse f = .ok d) :
    (createInvoice f now oc).inserts =
      [⟨d.customerId, d.amount * 100, d.status, isoDatePart now⟩] ∧
    (updateInvoice f oc).updates =
      [(f.id, ⟨d.customerId, d.amount * 100, d.status⟩)] := by
  constructor
  · unfold createInvoice
    rw [h]
    cases oc <;> rfl
  · unfold updateInvoice UpdateInvoiceSafeParse
    rw [h]
    cases oc with
    | resolved e => cases e <;> rfl
    | rejected e => rfl

theorem invoice_amount_written_witness :
    CreateInvoiceSafeParse ⟨some "i7", some "c1", some "3", some "paid"⟩ =
      .ok ⟨"c1", ((3 : ℕ) : ℚ), .paid⟩ ∧
    (createInvoice ⟨some "i7", some "c1", some "3", some "paid"⟩
        "2026-10-11T00:00:00.000Z" (.resolved none)).inserts =
      [⟨"c1", ((3 : ℕ) : ℚ) * 100, .paid, isoDatePart "2026-10-11T00:00:00.000Z"⟩] :=
  ⟨by decide,
   (invoice_amount_written ⟨some "i7", some "c1", some "3", some "paid"⟩
      "2026-10-11T00:00:00.000Z" (.resolved none)
      ⟨"c1", ((3 : ℕ) : ℚ), .paid⟩ (by decide)).1⟩

/-- C5 (counterexample): an execution of `deleteInvoice` in which the store
delete fails performs no cache invalidation at all — the rethrow from the
catch block happens before the `revalidatePath` call, which sits after the
try/catch. -/
theorem deleteInvoice_no_revalidation_on_failure :
    (deleteInvoice "i1" (.resolved (some ⟨true, "boom"⟩))).revalidated = [] ∧
    (deleteInvoice "i1" (.resolved (some ⟨true, "boom"⟩))).result = .raised "boom" := by
  decide

/-- C5 (amended): `deleteInvoice` invalidates the invoices list view exactly
in the executions where the store delete succeeds; when the delete fails the
rethrown error skips the invalidation. -/
theorem deleteInvoice_revalidation_iff_success (id : String) (oc : StoreCallOutcome) :
    ((deleteInvoice id oc).revalidated = ["/dashboard/invoices"] ↔
      (deleteInvoice id oc).result = .completed) ∧
    ((deleteInvoice id oc).result = .completed ↔ oc = .resolved none) := by
  cases oc with
  | resolved e => cases e <;> simp [deleteInvoice]
  | rejected e => simp [deleteInvoice]

/-- C6 (counterexample): the message raised by `deleteInvoice` does depend on
the underlying store error — two different store errors that are `Error`
instances produce two different raised messages, each re-surfacing the
original message rather than the generic fallback. -/
theorem deleteInvoice_error_message_depends_on_cause :
    (deleteInvoice "i1" (.resolved (some ⟨true, "boom"⟩))).result = .raised "boom" ∧
    (deleteInvoice "i1" (.resolved (some ⟨true, "crash"⟩))).result = .raised "crash" ∧
    ("boom" : String) ≠ "crash" ∧
    ("boom" : String) ≠ "Failed to delete invoice." := by
  decide

/-- C6 (amended): the error raised by a failing `deleteInvoice` is a fresh
error whose message copies the underlying store error message whenever that
error is an `Error` instance, and falls back to the generic
`Failed to delete invoice.` only otherwise; the original error object itself
is discarded. -/
theorem deleteInvoice_raised_message (id : String) (e : JsError) :
    (deleteInvoice id (.resolved (some e))).result = .raised (deleteRaisedMessage e) ∧
    (deleteInvoice id (.rejected e)).result = .raised (deleteRaisedMessage e) ∧
    deleteRaisedMessage ⟨true, "boom"⟩ = "boom" ∧
    deleteRaisedMessage ⟨false, "boom"⟩ = "Failed to delete invoice." :=
  ⟨rfl, rfl, rfl, rfl⟩

/-- C10: `updateInvoice` keys its store update on the raw `id` form value
with no validation: every submission whose other fields validate issues
exactly one update keyed on that verbatim value — including a missing `id`,
which produces no field error. -/
theorem updateInvoice_id_unvalidated (f : InvoiceFormData)
    (oc : StoreCallOutcome) (d : InvoiceFields)
    (h : UpdateInvoiceSafeParse f = .ok d) :
    (updateInvoice f oc).updates =
      [(f.id, ⟨d.customerId, d.amount * 100, d.status⟩)] ∧
    (∀ e m, (updateInvoice f oc).result ≠ .formErrors e m) := by
  unfold updateInvoice
  rw [h]
  cases oc with
  | resolved e =>
    cases e with
    | none => exact ⟨rfl, fun e m hc => ActionResult.noConfusion hc⟩
    | some err => exact ⟨rfl, fun e m hc => ActionResult.noConfusion hc⟩
  | rejected e => exact ⟨rfl, fun e m hc => ActionResult.noConfusion hc⟩

theorem updateInvoice_id_unvalidated_witness :
    UpdateInvoiceSafeParse ⟨none, some "c2", some "3", some "pending"⟩ =
      .ok ⟨"c2", ((3 : ℕ) : ℚ), .pending⟩ ∧
    (updateInvoice ⟨none, some "c2", some "3", some "pending"⟩
        (.resolved none)).updates =
      [(none, ⟨"c2", ((3 : ℕ) : ℚ) * 100, .pending⟩)] :=
  ⟨by decide,
   (updateInvoice_id_unvalidated ⟨none, some "c2", some "3", some "pending"⟩
      (.resolved none) ⟨"c2", ((3 : ℕ) : ℚ), .pending⟩ (by decide)).1⟩

/-! ### Query layer theorems -/

/-- Sample store: one pending invoice of 500 cents owned by one customer. -/
def sampleStore : Store :=
  ⟨[⟨"i1", "c1", 500, .pending, "2024-01-01"⟩],
   [⟨"c1", "Alice", "alice@example.com", "img1"⟩]⟩

/-- C2 (counterexample): with the invoice-count sub-query failing and the
other three succeeding, `fetchCardData` does not fail with a fetch error: it
returns an aggregate built from the successful sub-queries (customer count 1,
pending total 500) with the failed invoice count defaulted to 0. -/
theorem fetchCardData_returns_despite_subquery_failure :
    fetchCardData sampleStore ⟨false, true, true, true⟩ =
      .ok ⟨1, 0, formatCurrency 0, formatCurrency 500⟩ := by
  decide

/-- Sum of the amounts of the invoices with the given status. -/
def statusTotal (st : Store) (s : InvStatus) : Nat :=
  ((st.invoices.filter (fun r => r.status == s)).map (·.amount)).sum

/-- C2 (amended): `fetchCardData` never fails for in-band sub-query failures:
the supabase client resolves each sub-query (so `Promise.all` resolves), the
source never inspects the per-query errors, and each failed sub-query
contributes the null-coalesced default 0 while each successful one
contributes the true aggregate. -/
theorem fetchCardData_subquery_failure_defaults (st : Store) (oc : CardQueryOutcomes) :
    fetchCardData st oc =
      .ok ⟨if oc.customerCount then st.customers.length else 0,
           if oc.invoiceCount then st.invoices.length else 0,
           formatCurrency (if oc.paid then statusTotal st .paid else 0),
           formatCurrency (if oc.pending then statusTotal st .pending else 0)⟩ := by
  have hfold : ∀ l : List Nat, l.foldl (· + ·) 0 = l.sum := by
    intro l
    simp [List.sum, List.foldl_eq_foldr]
  unfold fetchCardData
  cases hic : oc.invoiceCount <;> cases hcc : oc.customerCount <;>
    cases hp : oc.paid <;> cases hpe : oc.pending <;>
    simp [hic, hcc, hp, hpe, hfold, statusTotal]

/-- C8: `fetchInvoicesPages` returns exactly the ceiling of the matching row
count divided by the fixed page size 6; six times the page count covers the
matching row count, and an empty match yields page count 0. -/
theorem fetchInvoicesPages_ceil (st : Store) (q : String) :
    fetchInvoicesPages st q false =
      .ok ⌈(fetch_invoices_pages_count st q : ℚ) / 6⌉ ∧
    (fetch_invoices_pages_count st q : ℤ) ≤
      6 * ⌈(fetch_invoices_pages_count st q : ℚ) / 6⌉ ∧
    (fetch_invoices_pages_count st q = 0 → fetchInvoicesPages st q false = .ok 0) := by
  refine ⟨by simp [fetchInvoicesPages, ITEMS_PER_PAGE], ?_, ?_⟩
  · have h := Int.le_ceil ((fetch_invoices_pages_count st q : ℚ) / 6)
    have h2 : ((fetch_invoices_pages_count st q : ℕ) : ℚ) ≤
        6 * (⌈((fetch_invoices_pages_count st q : ℕ) : ℚ) / 6⌉ : ℚ) := by
      calc ((fetch_invoices_pages_count st q : ℕ) : ℚ)
          = 6 * (((fetch_invoices_pages_count st q : ℕ) : ℚ) / 6) := by ring
        _ ≤ 6 * (⌈((fetch_invoices_pages_count st q : ℕ) : ℚ) / 6⌉ : ℚ) := by
            exact mul_le_mul_of_nonneg_left h (by norm_num)
    exact_mod_cast h2
  · intro h0
    simp [fetchInvoicesPages, ITEMS_PER_PAGE, h0]

/-! ### Date ordering lemmas for the filtered search -/

theorem natLexLe_total : ∀ a b : List Nat, natLexLe a b = true ∨ natLexLe b a = true := by
  intro a
  induction a with
  | nil => intro b; left; rfl
  | cons x xs ih =>
    intro b
    cases b with
    | nil => right; rfl
    | cons y ys =>
      by_cases hxy : x < y
      · left; simp [natLexLe, hxy]
      · by_cases heq : x = y
        · subst heq
          rcases ih ys with h | h
          · left; simp [natLexLe, h]
          · right; simp [natLexLe, h]
        · have hyx : y < x := by omega
          right
          simp [natLexLe, hyx]

theorem natLexLe_trans : ∀ a b c : List Nat,
    natLexLe a b = true → natLexLe b c = true → natLexLe a c = true := by
  intro a
  induction a with
  | nil => intro b c _ _; rfl
  | cons x xs ih =>
    intro b c h1 h2
    cases b with
    | nil => simp [natLexLe] at h1
    | cons y ys =>
      cases c with
      | nil => simp [natLexLe] at h2
      | cons z zs =>
        simp only [natLexLe] at h1 h2 ⊢
        split_ifs at h1 h2 ⊢ <;>
          first
            | rfl
            | omega
            | (exact ih ys zs h1 h2)

theorem dateDescLe_total (a b : JoinedInvoice) :
    dateDescLe a b = true ∨ dateDescLe b a = true :=
  natLexLe_total _ _

theorem dateDescLe_trans {a b c : JoinedInvoice}
    (h1 : dateDescLe a b = true) (h2 : dateDescLe b c = true) :
    dateDescLe a c = true :=
  natLexLe_trans _ _ _ h2 h1

theorem mem_insertByDateDesc {z x : JoinedInvoice} {l : List JoinedInvoice}
    (h : z ∈ insertByDateDesc x l) : z = x ∨ z ∈ l := by
  induction l with
  | nil =>
    simp [insertByDateDesc] at h
    exact Or.inl h
  | cons y ys ih =>
    rw [insertByDateDesc] at h
    by_cases hxy : dateDescLe x y = true
    · rw [if_pos hxy] at h
      rcases List.mem_cons.mp h with rfl | h2
      · exact Or.inl rfl
      · exact Or.inr h2
    · rw [if_neg hxy] at h
      rcases List.mem_cons.mp h with rfl | h2
      · exact Or.inr (List.mem_cons_self _ _)
      · rcases ih h2 with h3 | h3
        · exact Or.inl h3
        · exact Or.inr (List.mem_cons_of_mem _ h3)

theorem pairwise_insertByDateDesc (x : JoinedInvoice) (l : List JoinedInvoice)
    (hl : l.Pairwise (fun a b => dateDescLe a b = true)) :
    (insertByDateDesc x l).Pairwise (fun a b => dateDescLe a b = true) := by
  induction l with
  | nil => simp [insertByDateDesc]
  | cons y ys ih =>
    rcases List.pairwise_cons.mp hl with ⟨hy, hys⟩
    by_cases hxy : dateDescLe x y = true
    · rw [insertByDateDesc, if_pos hxy]
      refine List.pairwise_cons.mpr ⟨?_, hl⟩
      intro z hz
      rcases List.mem_cons.mp hz with rfl | hz2
      · exact hxy
      · exact dateDescLe_trans hxy (hy z hz2)
    · rw [insertByDateDesc, if_neg hxy]
      refine List.pairwise_cons.mpr ⟨?_, ih hys⟩
      intro z hz
      rcases mem_insertByDateDesc hz with rfl | hz2
      · rcases dateDescLe_total z y with h | h
        · exact absurd h hxy
        · exact h
      · exact hy z hz2

theorem pairwise_sortByDateDesc (l : List JoinedInvoice) :
    (sortByDateDesc l).Pairwise (fun a b => dateDescLe a b = true) := by
  induction l with
  | nil => simp [sortByDateDesc]
  | cons x xs ih => exact pairwise_insertByDateDesc x _ ih

/-- C7 (counterexample): for a store whose single 500-cent invoice matches
the query, `fetchFilteredInvoices` returns the amount as the raw number 500
parsed by `parseFloat`, not as the currency display of 500 cents (the
character sequence rendering five dollars). -/
theorem fetchFilteredInvoices_amount_not_formatted :
    fetchFilteredInvoices sampleStore "" 1 false =
      .ok [⟨"i1", ((500 : ℕ) : ℚ), "2024-01-01", .pending, "Alice",
            "alice@example.com", "img1"⟩] ∧
    formatCurrency 500 = ['$', '5', '.', '0', '0'] ∧
    ((500 : ℕ) : ℚ) ≠ ((5 : ℕ) : ℚ) := by
  refine ⟨by decide, by decide, by decide⟩

/-- C7 (amended): for every query and every page number at least 1, a
non-failing `fetchFilteredInvoices` call returns exactly the
`(p-1)*6`-offset window of size at most 6 of the matching invoices (customer
name or email containing the query case-insensitively), joined with the
customer fields, ordered by date descending, with amounts as raw numbers; a
query matching no invoice yields the empty sequence, not an error. -/
theorem fetchFilteredInvoices_page (st : Store) (q : String) (p : Nat)
    (_hp : 1 ≤ p) (l : List InvoiceDisplay)
    (h : fetchFilteredInvoices st q p false = .ok l) :
    l = (((sortByDateDesc ((st.invoices.filter (matchesQuery st q)).map
          (joinCustomer st))).drop ((p - 1) * 6)).take 6).map
        (fun r => ⟨r.id, (r.amount : ℚ), r.date, r.status, r.name, r.email,
                   r.image_url⟩) ∧
    l.length ≤ 6 ∧
    l.Pairwise (fun a b => strLe b.date a.date = true) ∧
    ((∀ inv ∈ st.invoices, matchesQuery st q inv = false) → l = []) := by
  have hl : l = (((sortByDateDesc ((st.invoices.filter (matchesQuery st q)).map
      (joinCustomer st))).drop ((p - 1) * 6)).take 6).map
      (fun r => ⟨r.id, (r.amount : ℚ), r.date, r.status, r.name, r.email,
                 r.image_url⟩) := by
    have h2 := h
    simp only [fetchFilteredInvoices, fetch_filtered_invoices, ITEMS_PER_PAGE,
      if_neg (by decide : ¬ (false : Bool) = true), Except.ok.injEq] at h2
    exact h2.symm
  refine ⟨hl, ?_, ?_, ?_⟩
  · rw [hl]
    simp only [List.length_map, List.length_take]
    omega
  · rw [hl]
    rw [List.pairwise_map]
    have hsorted := pairwise_sortByDateDesc
      ((st.invoices.filter (matchesQuery st q)).map (joinCustomer st))
    have hsub : ((((sortByDateDesc ((st.invoices.filter (matchesQuery st q)).map
        (joinCustomer st))).drop ((p - 1) * 6)).take 6)).Sublist
        (sortByDateDesc ((st.invoices.filter (matchesQuery st q)).map
          (joinCustomer st))) :=
      (List.take_sublist _ _).trans (List.drop_sublist _ _)
    exact List.Pairwise.sublist hsub hsorted
  · intro hnone
    have hfil : st.invoices.filter (matchesQuery st q) = [] := by
      rw [List.filter_eq_nil_iff]
      intro inv hinv
      simp [hnone inv hinv]
    rw [hl, hfil]
    simp [sortByDateDesc]

theorem fetchFilteredInvoices_page_witness :
    (1 : Nat) ≤ 1 ∧
    fetchFilteredInvoices sampleStore "zzz" 1 false = .ok ([] : List InvoiceDisplay) ∧
    ([] : List InvoiceDisplay).length ≤ 6 :=
  ⟨by decide, by decide,
   (fetchFilteredInvoices_page sampleStore "zzz" 1 (by decide)
      ([] : List InvoiceDisplay) (by decide)).2.1⟩

theorem fetchInvoicesPages_ceil_witness :
    fetch_invoices_pages_count sampleStore "zzz" = 0 ∧
    fetchInvoicesPages sampleStore "zzz" false = .ok 0 :=
  ⟨by decide, (fetchInvoicesPages_ceil sampleStore "zzz").2.2 (by decide)⟩
